import Mathlib

/-!
Verification of the QSOlive client core (qsolive_client.py): the ADIF
tokenizer (ADIFParser.parse), the grid-square geocoder wrapper
(GridSquareGeocoder.to_latlon), the record normalizer
(QSOliveClient.process_adif), and the delivery retry loop
(QSOliveClient.run).  Strings are modelled as lists of characters; the
Python scan cursor, which can become negative, is modelled as an integer.
-/

/-- A field dictionary as built by ADIFParser.parse: an association list
where a later assignment is consed in front, so lookup of the first match
gives the most recent value (dict overwrite semantics). -/
abbrev Fields : Type := List (List Char × List Char)

/-- Dictionary lookup: the value of the most recently stored binding. -/
def Fields.lookup (fs : Fields) (k : List Char) : Option (List Char) :=
  match fs with
  | [] => none
  | (k2, v) :: rest => if k2 = k then some v else Fields.lookup rest k

/-- Python str.split with a one-character separator, as used on line 61
of qsolive_client.py (field_info.split with a colon). -/
def pySplit (sep : Char) : List Char → List (List Char)
  | [] => [[]]
  | c :: t =>
    match pySplit sep t with
    | h :: r => if c = sep then [] :: h :: r else (c :: h) :: r
    | [] => [[c]]

/-- Python str.strip with no argument: remove leading and trailing
whitespace, as used on line 74 of qsolive_client.py. -/
def pyStrip (s : List Char) : List Char :=
  ((s.dropWhile Char.isWhitespace).reverse.dropWhile Char.isWhitespace).reverse

/-- Value of a nonempty all-digit string, used by the model of int(). -/
def digitsVal (ds : List Char) : Option Nat :=
  if ds = [] then none
  else if ds.all Char.isDigit then
    some (ds.foldl (fun a c => a * 10 + (c.toNat - 48)) 0)
  else none

/-- Python int(str) on line 66 of qsolive_client.py: optional surrounding
whitespace, optional sign, then decimal digits; anything else raises
ValueError, modelled as none.  (Unicode digits and underscore separators,
which CPython also accepts, are not modelled; no claim depends on them.) -/
def pyInt (s : List Char) : Option Int :=
  match pyStrip s with
  | '-' :: ds => (digitsVal ds).map (fun n => -(n : Int))
  | '+' :: ds => (digitsVal ds).map (fun n => (n : Int))
  | ds => (digitsVal ds).map (fun n => (n : Int))

/-- Python single-character indexing s[i]: a negative index counts from
the end; an index out of range raises IndexError, modelled as none. -/
def pyCharAt (s : List Char) (i : Int) : Option Char :=
  if 0 ≤ i then s[i.toNat]?
  else if 0 ≤ (s.length : Int) + i then s[((s.length : Int) + i).toNat]?
  else none

/-- Index of the first occurrence of a character in a list. -/
def findChar (s : List Char) (c : Char) : Option Nat :=
  match s with
  | [] => none
  | d :: t => if d = c then some 0 else (findChar t c).map (fun n => n + 1)

/-- Python str.find(ch, start) on line 56 of qsolive_client.py: scan from
the (possibly negative, end-relative, clamped) start position; -1 when
absent. -/
def pyFind (s : List Char) (c : Char) (start : Int) : Int :=
  let st : Nat := if start < 0 then ((s.length : Int) + start).toNat else start.toNat
  match findChar (s.drop st) c with
  | some k => (st : Int) + (k : Int)
  | none => -1

/-- Python slice bound resolution: negative bounds count from the end,
and bounds are clamped into the range of the string length. -/
def pySliceIdx (len : Nat) (x : Int) : Nat :=
  if x < 0 then ((len : Int) + x).toNat else min x.toNat len

/-- Python slicing s[a:b] as used on lines 60 and 73 of
qsolive_client.py; out-of-range slices clamp instead of raising. -/
def pySlice (s : List Char) (a b : Int) : List Char :=
  (s.take (pySliceIdx s.length b)).drop (pySliceIdx s.length a)

/-- The loop state of ADIFParser.parse: the scan cursor i and the fields
dictionary accumulated so far. -/
structure ParseState where
  i : Int
  fields : Fields
deriving DecidableEq

/-- Result of one iteration of the while loop of ADIFParser.parse
(lines 53-80): continue with a new state, leave the loop with the final
dictionary, or raise an uncaught IndexError. -/
inductive StepRes where
  | cont (st : ParseState)
  | done (fields : Fields)
  | raised
deriving DecidableEq

/-- One iteration of the while loop of ADIFParser.parse, translated
clause by clause from lines 53-80 of qsolive_client.py. -/
def parseStep (s : List Char) (st : ParseState) : StepRes :=
  if st.i < (s.length : Int) then
    match pyCharAt s st.i with
    | none => StepRes.raised
    | some c =>
      if c = '<' then
        let e := pyFind s '>' st.i
        if e = -1 then StepRes.done st.fields
        else
          let field_info := pySlice s (st.i + 1) e
          match pySplit ':' field_info with
          | field_name :: flen :: _ =>
            match pyInt flen with
            | none => StepRes.cont ⟨e + 1, st.fields⟩
            | some field_length =>
              let value_start := e + 1
              let value := pySlice s value_start (value_start + field_length)
              StepRes.cont ⟨value_start + field_length,
                (field_name.map Char.toUpper, pyStrip value) :: st.fields⟩
          | _ => StepRes.cont ⟨e + 1, st.fields⟩
      else
        StepRes.cont ⟨st.i + 1, st.fields⟩
  else
    StepRes.done st.fields

/-- Outcome of running the parse loop: normal return of the dictionary,
an uncaught exception, or failure to finish within the given number of
iterations (CPython has no fuel; running out models divergence of the
while loop). -/
inductive ParseOutcome where
  | ok (fields : Fields)
  | raised
  | outOfFuel
deriving DecidableEq

/-- Iterate parseStep at most fuel times. -/
def parseRun (fuel : Nat) (s : List Char) (st : ParseState) : ParseOutcome :=
  match fuel with
  | 0 => ParseOutcome.outOfFuel
  | fuel + 1 =>
    match parseStep s st with
    | StepRes.done f => ParseOutcome.ok f
    | StepRes.raised => ParseOutcome.raised
    | StepRes.cont st2 => parseRun fuel s st2

/-- ADIFParser.parse (lines 47-82 of qsolive_client.py): start at cursor 0
with an empty dictionary.  One more iteration than the input length is
enough fuel whenever every iteration moves the cursor forward, which holds
for every nonnegative declared field length. -/
def parse (s : List Char) : ParseOutcome :=
  parseRun (s.length + 1) s ⟨0, []⟩

/-- Input whose declared field length is -6: the cursor update
i = value_start + field_length comes back to 0. -/
def negSix : List Char := ['<', 'A', ':', '-', '6', '>']

/-- Input whose declared field length is -999: the cursor update makes the
cursor -991, and indexing the string there raises IndexError. -/
def negBig : List Char := ['<', 'A', ':', '-', '9', '9', '9', '>']

/-- Field name CALL. -/
def kCALL : List Char := ['C', 'A', 'L', 'L']

/-- Field name QSO_DATE. -/
def kQSO_DATE : List Char := ['Q', 'S', 'O', '_', 'D', 'A', 'T', 'E']

/-- Field name TIME_ON. -/
def kTIME_ON : List Char := ['T', 'I', 'M', 'E', '_', 'O', 'N']

/-- Field name STATION_CALLSIGN. -/
def kSTATION_CALLSIGN : List Char :=
  ['S', 'T', 'A', 'T', 'I', 'O', 'N', '_', 'C', 'A', 'L', 'L', 'S', 'I', 'G', 'N']

/-- Field name BAND. -/
def kBAND : List Char := ['B', 'A', 'N', 'D']

/-- Field name MODE. -/
def kMODE : List Char := ['M', 'O', 'D', 'E']

/-- Field name FREQ. -/
def kFREQ : List Char := ['F', 'R', 'E', 'Q']

/-- Field name RST_SENT. -/
def kRST_SENT : List Char := ['R', 'S', 'T', '_', 'S', 'E', 'N', 'T']

/-- Field name RST_RCVD. -/
def kRST_RCVD : List Char := ['R', 'S', 'T', '_', 'R', 'C', 'V', 'D']

/-- Field name GRIDSQUARE. -/
def kGRIDSQUARE : List Char := ['G', 'R', 'I', 'D', 'S', 'Q', 'U', 'A', 'R', 'E']

/-- Field name MY_GRIDSQUARE. -/
def kMY_GRIDSQUARE : List Char :=
  ['M', 'Y', '_', 'G', 'R', 'I', 'D', 'S', 'Q', 'U', 'A', 'R', 'E']

/-- The literal UNKNOWN used as the last callsign fallback. -/
def sUNKNOWN : List Char := ['U', 'N', 'K', 'N', 'O', 'W', 'N']

/-- First locator pair: field letters A..R (case-insensitive), worth 20
degrees of longitude and 10 of latitude; result is the (lon, lat)
contribution.  Part of the model of the maidenhead library. -/
def mhPair1 (c0 c1 : Char) : Option (ℚ × ℚ) :=
  let u0 := c0.toUpper
  let u1 := c1.toUpper
  if 'A' ≤ u0 ∧ u0 ≤ 'R' ∧ 'A' ≤ u1 ∧ u1 ≤ 'R' then
    some (((u0.toNat - 65 : ℕ) : ℚ) * 20 - 180, ((u1.toNat - 65 : ℕ) : ℚ) * 10 - 90)
  else none

/-- Second locator pair: square digits, worth 2 degrees of longitude and
1 of latitude. -/
def mhPair2 (c2 c3 : Char) : Option (ℚ × ℚ) :=
  if c2.isDigit ∧ c3.isDigit then
    some (((c2.toNat - 48 : ℕ) : ℚ) * 2, ((c3.toNat - 48 : ℕ) : ℚ))
  else none

/-- Third locator pair: subsquare letters A..X (case-insensitive), worth
1/12 degree of longitude and 1/24 of latitude. -/
def mhPair3 (c4 c5 : Char) : Option (ℚ × ℚ) :=
  let u4 := c4.toUpper
  let u5 := c5.toUpper
  if 'A' ≤ u4 ∧ u4 ≤ 'X' ∧ 'A' ≤ u5 ∧ u5 ≤ 'X' then
    some (((u4.toNat - 65 : ℕ) : ℚ) / 12, ((u5.toNat - 65 : ℕ) : ℚ) / 24)
  else none

/-- Fourth locator pair: extended square digits, worth 1/120 degree of
longitude and 1/240 of latitude. -/
def mhPair4 (c6 c7 : Char) : Option (ℚ × ℚ) :=
  if c6.isDigit ∧ c7.isDigit then
    some (((c6.toNat - 48 : ℕ) : ℚ) / 120, ((c7.toNat - 48 : ℕ) : ℚ) / 240)
  else none

/-- Modelled from the spec: the external maidenhead library's to_location
(imported as mh on line 15 of qsolive_client.py, not part of src/).
Spec 4.2: valid 4-, 6-, or 8-character Maidenhead locators are decoded by
the standard field/square/subsquare letter-and-digit encoding (18 by 18
fields of 20 by 10 degrees, each split into 10 by 10 squares of 2 by 1
degrees, optionally further subdivided); any conversion error - invalid
characters, malformed length - raises, modelled as none.  Returns
(latitude, longitude) of the cell's reference corner as exact rationals
(floating point is not modelled; no claim depends on the numeric values). -/
def mhToLocation (g : List Char) : Option (ℚ × ℚ) :=
  match g with
  | [c0, c1, c2, c3] => do
    let p1 ← mhPair1 c0 c1
    let p2 ← mhPair2 c2 c3
    pure (p1.2 + p2.2, p1.1 + p2.1)
  | [c0, c1, c2, c3, c4, c5] => do
    let p1 ← mhPair1 c0 c1
    let p2 ← mhPair2 c2 c3
    let p3 ← mhPair3 c4 c5
    pure (p1.2 + p2.2 + p3.2, p1.1 + p2.1 + p3.1)
  | [c0, c1, c2, c3, c4, c5, c6, c7] => do
    let p1 ← mhPair1 c0 c1
    let p2 ← mhPair2 c2 c3
    let p3 ← mhPair3 c4 c5
    let p4 ← mhPair4 c6 c7
    pure (p1.2 + p2.2 + p3.2 + p4.2, p1.1 + p2.1 + p3.1 + p4.1)
  | _ => none

/-- GridSquareGeocoder.to_latlon (lines 87-99 of qsolive_client.py): empty
or shorter-than-4 locators give None before any conversion; the try/except
turns every conversion error into None as well. -/
def to_latlon (grid : List Char) : Option (ℚ × ℚ) :=
  if grid = [] ∨ grid.length < 4 then none
  else mhToLocation grid

/-- Decimal digits of a natural number, most significant first. -/
def natDigits (n : Nat) : List Char := Nat.toDigits 10 n

/-- Textual rendering of a coordinate, standing in for CPython's float
formatting inside the f-string on line 221 of qsolive_client.py (sign,
numerator, and denominator when not integral; the exact repr digit
sequence of a float is not modelled - no claim depends on it). -/
def renderCoord (q : ℚ) : List Char :=
  (if q < 0 then ['-'] else []) ++ natDigits q.num.natAbs ++
    (if q.den = 1 then [] else '/' :: natDigits q.den)

/-- The PostGIS textual point built on line 221 of qsolive_client.py:
POINT(lon lat), longitude first. -/
def pointWKT (lon lat : ℚ) : List Char :=
  ['P', 'O', 'I', 'N', 'T', '('] ++ renderCoord lon ++ ' ' :: renderCoord lat ++ [')']

/-- Modelled from the spec: acceptance of the builtin float() conversion
used on line 207 of qsolive_client.py (CPython internals are not in src/).
Spec 4.3: frequency is parsed from FREQ as floating point and a parse
failure merely omits the field.  Optional surrounding whitespace, optional
sign, digits with at most one decimal point and at least one digit;
exponent and inf/nan forms are left out - no claim depends on them. -/
def pyFloatAccepts (s : List Char) : Bool :=
  let t :=
    match pyStrip s with
    | '+' :: r => r
    | '-' :: r => r
    | r => r
  match pySplit '.' t with
  | [a] => !a.isEmpty && a.all Char.isDigit
  | [a, b] => (!a.isEmpty || !b.isEmpty) && a.all Char.isDigit && b.all Char.isDigit
  | _ => false

/-- The configuration values process_adif reads: config.get on the key
operator_callsign, absent when config.json has no such key. -/
structure Config where
  operator_callsign : Option (List Char)

/-- The contact dictionary built by QSOliveClient.process_adif
(lines 182-233).  Always-present keys are plain fields; keys only set
under a condition are Options.  frequency stores the FREQ text that
float() accepted (the float value itself is not modelled). -/
structure Contact where
  callsign : List Char
  contacted_callsign : List Char
  qso_date : List Char
  time_on : List Char
  operator_callsign : List Char
  band : Option (List Char)
  mode : Option (List Char)
  frequency : Option (List Char)
  rst_sent : Option (List Char)
  rst_rcvd : Option (List Char)
  gridsquare : Option (List Char)
  location : Option (List Char)
  my_gridsquare : Option (List Char)
  my_location : Option (List Char)
  raw_adif : List Char
deriving DecidableEq

/-- QSOliveClient.process_adif, lines 166-237 of qsolive_client.py, after
the ADIF text has been parsed into a FieldSet: the spec's RecordNormalizer.
now_date and now_time stand for the two datetime.now(timezone.utc)
strftime strings (the nowProvider); raw is the original ADIF text stored
under raw_adif.  Returns none exactly on the two early returns (empty
FieldSet, missing CALL); every later step is total, so nothing else is
rejected. -/
def process_adif (cfg : Config) (now_date now_time raw : List Char)
    (fields : Fields) : Option Contact :=
  if fields = [] then none
  else
    match Fields.lookup fields kCALL with
    | none => none
    | some callv =>
      let qd0 := (Fields.lookup fields kQSO_DATE).getD now_date
      let qd :=
        if qd0.length = 8 then
          qd0.take 4 ++ '-' :: ((qd0.drop 4).take 2 ++ '-' :: qd0.drop 6)
        else qd0
      let t0 := (Fields.lookup fields kTIME_ON).getD now_time
      let t :=
        if 6 ≤ t0.length then
          t0.take 2 ++ ':' :: ((t0.drop 2).take 2 ++ ':' :: (t0.drop 4).take 2)
        else if t0.length = 4 then
          t0.take 2 ++ ':' :: ((t0.drop 2).take 2 ++ [':', '0', '0'])
        else t0
      some
        { callsign :=
            cfg.operator_callsign.getD
              ((Fields.lookup fields kSTATION_CALLSIGN).getD sUNKNOWN)
          contacted_callsign := callv
          qso_date := qd
          time_on := t
          operator_callsign := cfg.operator_callsign.getD sUNKNOWN
          band := Fields.lookup fields kBAND
          mode := Fields.lookup fields kMODE
          frequency :=
            match Fields.lookup fields kFREQ with
            | some v => if pyFloatAccepts v then some v else none
            | none => none
          rst_sent := Fields.lookup fields kRST_SENT
          rst_rcvd := Fields.lookup fields kRST_RCVD
          gridsquare := Fields.lookup fields kGRIDSQUARE
          location :=
            match Fields.lookup fields kGRIDSQUARE with
            | some g =>
              match to_latlon g with
              | some p => some (pointWKT p.2 p.1)
              | none => none
            | none => none
          my_gridsquare := Fields.lookup fields kMY_GRIDSQUARE
          my_location :=
            match Fields.lookup fields kMY_GRIDSQUARE with
            | some g =>
              match to_latlon g with
              | some p => some (pointWKT p.2 p.1)
              | none => none
            | none => none
          raw_adif := raw }

/-- The retry for-loop of QSOliveClient.run (lines 267-276): iterate the
remaining attempts from the given attempt index; a successful delivery
breaks out.  The pair returned is the final success flag and the number
of delivery calls made; the sink abstracts insert_contact as a function
of the attempt index, and the sleeps between attempts are not modelled. -/
def retryFrom (sink : Nat → Bool) : Nat → Nat → Bool × Nat
  | 0, _ => (false, 0)
  | r + 1, attempt =>
    if sink attempt then (true, 1)
    else
      let p := retryFrom sink r (attempt + 1)
      (p.1, p.2 + 1)

/-- Delivery with retry as run() performs it: retry_attempts iterations
starting at attempt 0. -/
def deliverWithRetry (sink : Nat → Bool) (retry_attempts : Nat) : Bool × Nat :=
  retryFrom sink retry_attempts 0

/-- FieldSet counterexample for C3: CALL is present but its value is the
empty string, as the tokenizer produces for a CALL token of length 0. -/
def fsEmptyCALL : Fields := [(kCALL, [])]

/-- FieldSet counterexample for C4: no configured default, but a
STATION_CALLSIGN field is present. -/
def fsStation : Fields := [(kCALL, ['W', '1']), (kSTATION_CALLSIGN, ['K', '1'])]

/-- Truncation edge case of C6: declared length 10 with only two bytes
left in the buffer. -/
def truncInput : List Char := ['<', 'C', 'A', 'L', 'L', ':', '1', '0', '>', 'A', 'B']

/-- Unterminated-token edge case of C6: an opening bracket with no
closing one. -/
def unterminatedInput : List Char := ['<', 'C', 'A', 'L', 'L']

/-- C1: process_adif returns None exactly when the parsed FieldSet is
empty or has no CALL field; no other field content makes it reject a
record. -/
theorem process_adif_none_iff (cfg : Config) (nd nt raw : List Char) (fs : Fields) :
    process_adif cfg nd nt raw fs = none ↔ fs = [] ∨ Fields.lookup fs kCALL = none := by
  by_cases he : fs = []
  · subst he
    simp [process_adif, Fields.lookup]
  · cases h : Fields.lookup fs kCALL with
    | none => simp [process_adif, he, h]
    | some v => simp [process_adif, he, h]

/-- C3 counterexample: on a FieldSet whose CALL value is the empty string,
process_adif succeeds and the produced record's contacted_callsign is
empty, so empty-CALL records are not discarded. -/
theorem contacted_callsign_empty_cex :
    (process_adif ⟨none⟩ [] [] [] fsEmptyCALL).map Contact.contacted_callsign = some [] := by
  decide

/-- C3 (amended): whenever process_adif succeeds, the record's
contacted_callsign equals the CALL field's value - presence of CALL, not
non-emptiness, is what is validated, and a present-but-empty CALL yields
a record with an empty contacted_callsign. -/
theorem contacted_callsign_eq_call (cfg : Config) (nd nt raw : List Char) (fs : Fields)
    (cv : List Char) (h : Fields.lookup fs kCALL = some cv) :
    ∃ r, process_adif cfg nd nt raw fs = some r ∧ r.contacted_callsign = cv := by
  have hne : fs ≠ [] := by
    intro he
    rw [he] at h
    simp [Fields.lookup] at h
  simp only [process_adif, if_neg hne, h]
  exact ⟨_, rfl, rfl⟩

/-- Witness for the amended C3 at a concrete FieldSet. -/
theorem contacted_callsign_eq_call_witness :
    Fields.lookup fsEmptyCALL kCALL = some [] ∧
    ∃ r, process_adif ⟨none⟩ [] [] [] fsEmptyCALL = some r ∧ r.contacted_callsign = [] :=
  ⟨by decide, contacted_callsign_eq_call ⟨none⟩ [] [] [] fsEmptyCALL [] (by decide)⟩

/-- C4 counterexample: with no configured default and STATION_CALLSIGN
present, callsign falls back to the STATION_CALLSIGN value but
operator_callsign falls back directly to UNKNOWN, so the two attributes
are not computed by the same fallback chain. -/
theorem operator_callsign_chain_cex :
    (process_adif ⟨none⟩ [] [] [] fsStation).map Contact.callsign = some ['K', '1'] ∧
    (process_adif ⟨none⟩ [] [] [] fsStation).map Contact.operator_callsign = some sUNKNOWN ∧
    sUNKNOWN ≠ ['K', '1'] := by
  decide

/-- C4 (amended): callsign is the configured default, else the
STATION_CALLSIGN field, else UNKNOWN; operator_callsign is the configured
default, else UNKNOWN directly, with no STATION_CALLSIGN step. -/
theorem callsign_fallback_chains (cfg : Config) (nd nt raw : List Char) (fs : Fields)
    (cv : List Char) (h : Fields.lookup fs kCALL = some cv) :
    ∃ r, process_adif cfg nd nt raw fs = some r ∧
      (∀ c, cfg.operator_callsign = some c → r.callsign = c ∧ r.operator_callsign = c) ∧
      (cfg.operator_callsign = none →
        r.operator_callsign = sUNKNOWN ∧
        (∀ sc, Fields.lookup fs kSTATION_CALLSIGN = some sc → r.callsign = sc) ∧
        (Fields.lookup fs kSTATION_CALLSIGN = none → r.callsign = sUNKNOWN)) := by
  have hne : fs ≠ [] := by
    intro he
    rw [he] at h
    simp [Fields.lookup] at h
  simp only [process_adif, if_neg hne, h]
  refine ⟨_, rfl, ?_, ?_⟩
  · intro c hc
    exact ⟨by simp [hc], by simp [hc]⟩
  · intro hc
    refine ⟨by simp [hc], ?_, ?_⟩
    · intro sc hsc
      simp [hc, hsc]
    · intro hsc
      simp [hc, hsc]

/-- Witness for the amended C4 at a concrete configuration and FieldSet. -/
theorem callsign_fallback_chains_witness :
    Fields.lookup fsStation kCALL = some ['W', '1'] ∧
    ∃ r, process_adif ⟨none⟩ [] [] [] fsStation = some r ∧
      (∀ c, Config.operator_callsign ⟨none⟩ = some c → r.callsign = c ∧ r.operator_callsign = c) ∧
      (Config.operator_callsign ⟨none⟩ = none →
        r.operator_callsign = sUNKNOWN ∧
        (∀ sc, Fields.lookup fsStation kSTATION_CALLSIGN = some sc → r.callsign = sc) ∧
        (Fields.lookup fsStation kSTATION_CALLSIGN = none → r.callsign = sUNKNOWN)) :=
  ⟨by decide, callsign_fallback_chains ⟨none⟩ [] [] [] fsStation ['W', '1'] (by decide)⟩

/-- C5: with QSO_DATE present, an 8-character value is reformatted with
dashes (20240115 becomes 2024-01-15) and any other length passes through;
with TIME_ON present, a value of length at least 6 becomes HH:MM:SS from
its first six characters (1230 45 becomes 12:30:45), a 4-character value
becomes HH:MM:00 (1230 becomes 12:30:00), and any other length passes
through unchanged. -/
theorem qso_date_time_reformat (cfg : Config) (nd nt raw : List Char) (fs : Fields)
    (cv d t : List Char)
    (hc : Fields.lookup fs kCALL = some cv)
    (hd : Fields.lookup fs kQSO_DATE = some d)
    (ht : Fields.lookup fs kTIME_ON = some t) :
    ∃ r, process_adif cfg nd nt raw fs = some r ∧
      (d = ['2', '0', '2', '4', '0', '1', '1', '5'] →
        r.qso_date = ['2', '0', '2', '4', '-', '0', '1', '-', '1', '5']) ∧
      (d.length = 8 →
        r.qso_date = d.take 4 ++ '-' :: ((d.drop 4).take 2 ++ '-' :: d.drop 6)) ∧
      (d.length ≠ 8 → r.qso_date = d) ∧
      (t = ['1', '2', '3', '0'] → r.time_on = ['1', '2', ':', '3', '0', ':', '0', '0']) ∧
      (t = ['1', '2', '3', '0', '4', '5'] →
        r.time_on = ['1', '2', ':', '3', '0', ':', '4', '5']) ∧
      (6 ≤ t.length →
        r.time_on = t.take 2 ++ ':' :: ((t.drop 2).take 2 ++ ':' :: (t.drop 4).take 2)) ∧
      (t.length = 4 →
        r.time_on = t.take 2 ++ ':' :: ((t.drop 2).take 2 ++ [':', '0', '0'])) ∧
      (t.length ≠ 4 → t.length < 6 → r.time_on = t) := by
  have hne : fs ≠ [] := by
    intro he
    rw [he] at hc
    simp [Fields.lookup] at hc
  simp only [process_adif, if_neg hne, hc, hd, ht, Option.getD_some]
  refine ⟨_, rfl, ?_, ?_, ?_, ?_, ?_, ?_, ?_, ?_⟩
  · intro hdv
    subst hdv
    rfl
  · intro h8
    simp [h8]
  · intro h8
    simp [h8]
  · intro htv
    subst htv
    rfl
  · intro htv
    subst htv
    rfl
  · intro h6
    simp [h6]
  · intro h4
    have h6 : ¬ 6 ≤ t.length := by omega
    simp [h4, h6]
  · intro h4 h6
    have h6n : ¬ 6 ≤ t.length := by omega
    simp [h4, h6n]

/-- FieldSet used in witnesses of the date and time reformatting claim. -/
def fsDateTime : Fields :=
  [(kCALL, ['W']), (kQSO_DATE, ['2', '0', '2', '4', '0', '1', '1', '5']),
    (kTIME_ON, ['1', '2', '3', '0'])]

/-- Witness for C5 at a concrete FieldSet with QSO_DATE 20240115 and
TIME_ON 1230. -/
theorem qso_date_time_reformat_witness :
    Fields.lookup fsDateTime kCALL = some ['W'] ∧
    Fields.lookup fsDateTime kQSO_DATE = some ['2', '0', '2', '4', '0', '1', '1', '5'] ∧
    Fields.lookup fsDateTime kTIME_ON = some ['1', '2', '3', '0'] ∧
    ∃ r, process_adif ⟨none⟩ [] [] [] fsDateTime = some r ∧
      (['2', '0', '2', '4', '0', '1', '1', '5'] = ['2', '0', '2', '4', '0', '1', '1', '5'] →
        r.qso_date = ['2', '0', '2', '4', '-', '0', '1', '-', '1', '5']) ∧
      ((['2', '0', '2', '4', '0', '1', '1', '5'] : List Char).length = 8 →
        r.qso_date = (['2', '0', '2', '4', '0', '1', '1', '5'] : List Char).take 4 ++
          '-' :: (((['2', '0', '2', '4', '0', '1', '1', '5'] : List Char).drop 4).take 2 ++
            '-' :: (['2', '0', '2', '4', '0', '1', '1', '5'] : List Char).drop 6)) ∧
      ((['2', '0', '2', '4', '0', '1', '1', '5'] : List Char).length ≠ 8 →
        r.qso_date = ['2', '0', '2', '4', '0', '1', '1', '5']) ∧
      (['1', '2', '3', '0'] = ['1', '2', '3', '0'] →
        r.time_on = ['1', '2', ':', '3', '0', ':', '0', '0']) ∧
      (['1', '2', '3', '0'] = ['1', '2', '3', '0', '4', '5'] →
        r.time_on = ['1', '2', ':', '3', '0', ':', '4', '5']) ∧
      (6 ≤ (['1', '2', '3', '0'] : List Char).length →
        r.time_on = (['1', '2', '3', '0'] : List Char).take 2 ++
          ':' :: (((['1', '2', '3', '0'] : List Char).drop 2).take 2 ++
            ':' :: ((['1', '2', '3', '0'] : List Char).drop 4).take 2)) ∧
      ((['1', '2', '3', '0'] : List Char).length = 4 →
        r.time_on = (['1', '2', '3', '0'] : List Char).take 2 ++
          ':' :: (((['1', '2', '3', '0'] : List Char).drop 2).take 2 ++ [':', '0', '0'])) ∧
      ((['1', '2', '3', '0'] : List Char).length ≠ 4 →
        (['1', '2', '3', '0'] : List Char).length < 6 →
        r.time_on = ['1', '2', '3', '0']) :=
  ⟨by decide, by decide, by decide,
    qso_date_time_reformat ⟨none⟩ [] [] [] fsDateTime ['W']
      ['2', '0', '2', '4', '0', '1', '1', '5'] ['1', '2', '3', '0']
      (by decide) (by decide) (by decide)⟩

/-- C6: the tokenizer truncates a declared length that exceeds the
remaining buffer and stops cleanly on an unterminated token, but it is
not exception-free: on the input with declared field length -999 the
cursor update sends the scan index to -991 and string indexing there
raises an uncaught IndexError. -/
theorem tokenizer_raise_behavior :
    parse truncInput = ParseOutcome.ok [(kCALL, ['A', 'B'])] ∧
    parse unterminatedInput = ParseOutcome.ok [] ∧
    parse negBig = ParseOutcome.raised := by
  decide

/-- C7: the geocoder wrapper yields the failure case on every locator
shorter than 4 characters without attempting conversion, and a conversion
failure on longer input also yields the failure case instead of an
exception; the failure cases are exactly these. -/
theorem to_latlon_failure (g : List Char) :
    (g.length < 4 → to_latlon g = none) ∧
    (mhToLocation g = none → to_latlon g = none) ∧
    (to_latlon g = none ↔ g.length < 4 ∨ mhToLocation g = none) := by
  by_cases h4 : g.length < 4
  · have hguard : g = [] ∨ g.length < 4 := Or.inr h4
    unfold to_latlon
    rw [if_pos hguard]
    exact ⟨fun _ => rfl, fun _ => rfl, by simp [h4]⟩
  · have hguard : ¬ (g = [] ∨ g.length < 4) := by
      intro h
      rcases h with he | hl
      · rw [he] at h4
        simp at h4
      · exact h4 hl
    unfold to_latlon
    rw [if_neg hguard]
    refine ⟨fun h => absurd h h4, fun h => h, ?_⟩
    constructor
    · intro h
      exact Or.inr h
    · intro h
      rcases h with h | h
      · exact absurd h h4
      · exact h

/-- Witness for C7 at the two-character locator XY. -/
theorem to_latlon_failure_witness : to_latlon ['X', 'Y'] = none :=
  (to_latlon_failure ['X', 'Y']).1 (by decide)

/-- C8: in every record process_adif produces, the raw gridsquare
attributes mirror the corresponding fields, and the derived location and
my_location attributes are present exactly when the corresponding field is
present and its geocoding succeeded, in which case they carry the textual
POINT(lon lat) form with longitude first; a geocoding failure neither
sets the derived attribute nor fails the record. -/
theorem location_geocode_invariant (cfg : Config) (nd nt raw : List Char) (fs : Fields)
    (cv : List Char) (hc : Fields.lookup fs kCALL = some cv) :
    ∃ r, process_adif cfg nd nt raw fs = some r ∧
      r.gridsquare = Fields.lookup fs kGRIDSQUARE ∧
      r.my_gridsquare = Fields.lookup fs kMY_GRIDSQUARE ∧
      (Fields.lookup fs kGRIDSQUARE = none → r.location = none) ∧
      (∀ g, Fields.lookup fs kGRIDSQUARE = some g → to_latlon g = none → r.location = none) ∧
      (∀ g lat lon, Fields.lookup fs kGRIDSQUARE = some g → to_latlon g = some (lat, lon) →
        r.location = some (pointWKT lon lat)) ∧
      (Fields.lookup fs kMY_GRIDSQUARE = none → r.my_location = none) ∧
      (∀ g, Fields.lookup fs kMY_GRIDSQUARE = some g → to_latlon g = none →
        r.my_location = none) ∧
      (∀ g lat lon, Fields.lookup fs kMY_GRIDSQUARE = some g → to_latlon g = some (lat, lon) →
        r.my_location = some (pointWKT lon lat)) := by
  have hne : fs ≠ [] := by
    intro he
    rw [he] at hc
    simp [Fields.lookup] at hc
  simp only [process_adif, if_neg hne, hc]
  refine ⟨_, rfl, rfl, rfl, ?_, ?_, ?_, ?_, ?_, ?_⟩
  · intro h
    simp [h]
  · intro g hg hl
    simp [hg, hl]
  · intro g lat lon hg hl
    simp [hg, hl]
  · intro h
    simp [h]
  · intro g hg hl
    simp [hg, hl]
  · intro g lat lon hg hl
    simp [hg, hl]

/-- FieldSet used in the witness of the geocoding claim. -/
def fsCallOnly : Fields := [(kCALL, ['W'])]

/-- Witness for C8 at a concrete FieldSet. -/
theorem location_geocode_invariant_witness :
    Fields.lookup fsCallOnly kCALL = some ['W'] ∧
    ∃ r, process_adif ⟨none⟩ [] [] [] fsCallOnly = some r ∧
      r.gridsquare = Fields.lookup fsCallOnly kGRIDSQUARE ∧
      r.my_gridsquare = Fields.lookup fsCallOnly kMY_GRIDSQUARE ∧
      (Fields.lookup fsCallOnly kGRIDSQUARE = none → r.location = none) ∧
      (∀ g, Fields.lookup fsCallOnly kGRIDSQUARE = some g → to_latlon g = none →
        r.location = none) ∧
      (∀ g lat lon, Fields.lookup fsCallOnly kGRIDSQUARE = some g →
        to_latlon g = some (lat, lon) → r.location = some (pointWKT lon lat)) ∧
      (Fields.lookup fsCallOnly kMY_GRIDSQUARE = none → r.my_location = none) ∧
      (∀ g, Fields.lookup fsCallOnly kMY_GRIDSQUARE = some g → to_latlon g = none →
        r.my_location = none) ∧
      (∀ g lat lon, Fields.lookup fsCallOnly kMY_GRIDSQUARE = some g →
        to_latlon g = some (lat, lon) → r.my_location = some (pointWKT lon lat)) :=
  ⟨by decide, location_geocode_invariant ⟨none⟩ [] [] [] fsCallOnly ['W'] (by decide)⟩

/-- C9: with three configured attempts, a sink that fails on the first
two delivery calls and succeeds on the third makes the retry loop succeed
after exactly three calls, with no further attempt after the success. -/
theorem delivery_retry_three (sink : Nat → Bool)
    (h0 : sink 0 = false) (h1 : sink 1 = false) (h2 : sink 2 = true) :
    deliverWithRetry sink 3 = (true, 3) := by
  simp [deliverWithRetry, retryFrom, h0, h1, h2]

/-- Witness for C9 with the sink that succeeds only on attempt index 2. -/
theorem delivery_retry_three_witness :
    (fun n : Nat => n == 2) 0 = false ∧
    (fun n : Nat => n == 2) 1 = false ∧
    (fun n : Nat => n == 2) 2 = true ∧
    deliverWithRetry (fun n : Nat => n == 2) 3 = (true, 3) :=
  ⟨rfl, rfl, rfl, delivery_retry_three (fun n : Nat => n == 2) rfl rfl rfl⟩

/-- C10: on the input with declared field length -6 the cursor update
i = value_start + field_length returns the scan cursor to position 0 on
every iteration, so the tokenizer loop never terminates - parseRun runs
out of any amount of fuel from the initial state, and in particular
parse itself does. -/
theorem tokenizer_diverges_on_neg_six :
    (∀ (fuel : Nat) (f : Fields), parseRun fuel negSix ⟨0, f⟩ = ParseOutcome.outOfFuel) ∧
    parse negSix = ParseOutcome.outOfFuel := by
  have main : ∀ (fuel : Nat) (f : Fields),
      parseRun fuel negSix ⟨0, f⟩ = ParseOutcome.outOfFuel := by
    intro fuel
    induction fuel with
    | zero =>
      intro f
      rfl
    | succ n ih =>
      intro f
      have hstep : parseRun (n + 1) negSix ⟨0, f⟩ =
          parseRun n negSix ⟨0, (['A'], []) :: f⟩ := rfl
      rw [hstep]
      exact ih _
  exact ⟨main, main _ _⟩

/-- The anchored first token of the noise-robustness claim. -/
def tokA : List Char := ['<', 'A', ':', '3', '>', 'x', 'y', 'z']

/-- The anchored second token of the noise-robustness claim. -/
def tokB : List Char := ['<', 'B', ':', '2', '>', 'a', 'b']

/-- A position whose drop starts with a character is inside the list. -/
theorem lt_length_of_drop_cons {s t : List Char} {i : Nat} {c : Char}
    (h : s.drop i = c :: t) : i < s.length := by
  by_contra hle
  push_neg at hle
  rw [List.drop_eq_nil_of_le hle] at h
  simp at h

/-- The character at a position where the drop starts with it. -/
theorem getElem_opt_of_drop_cons {s t : List Char} {i : Nat} {c : Char}
    (h : s.drop i = c :: t) : s[i]? = some c := by
  have h0 := List.getElem?_drop s i 0
  rw [h] at h0
  simpa using h0.symm

/-- Dropping one more past a cons. -/
theorem drop_succ_of_drop_cons {s t : List Char} {i : Nat} {c : Char}
    (h : s.drop i = c :: t) : s.drop (i + 1) = t := by
  have h1 : (s.drop i).drop 1 = t := by
    rw [h]
    simp
  rw [List.drop_drop] at h1
  exact h1

/-- Dropping past a known prefix chunk. -/
theorem drop_chunk {s a b : List Char} {i k j : Nat}
    (h : s.drop i = a ++ b) (hk : a.length = k) (hj : j = i + k) : s.drop j = b := by
  subst hk hj
  have h1 : (s.drop i).drop a.length = b := by
    rw [h]
    exact List.drop_left a b
  rw [List.drop_drop] at h1
  exact h1

/-- Python indexing at a nonnegative position is plain list indexing. -/
theorem pyCharAt_natCast (s : List Char) (i : Nat) : pyCharAt s (i : Int) = s[i]? := by
  simp [pyCharAt]

/-- Python find from a nonnegative start, given where the character first
occurs in the dropped suffix. -/
theorem pyFind_natCast_of_findChar {s : List Char} {c : Char} {i k : Nat}
    (h : findChar (s.drop i) c = some k) : pyFind s c (i : Int) = ((i + k : Nat) : Int) := by
  have hi : ¬ ((i : Int) < 0) := by omega
  simp [pyFind, hi, Int.toNat_natCast, h]

/-- Python slicing with nonnegative bounds is take-then-drop. -/
theorem pySlice_natCast (s : List Char) (a b : Nat) :
    pySlice s (a : Int) (b : Int) = (s.take b).drop a := by
  unfold pySlice pySliceIdx
  have ha : ¬ ((a : Int) < 0) := by omega
  have hb : ¬ ((b : Int) < 0) := by omega
  rw [if_neg hb, if_neg ha]
  simp only [Int.toNat_natCast]
  have h1 : s.take (min b s.length) = s.take b := by
    rcases le_total b s.length with h | h
    · rw [min_eq_left h]
    · rw [min_eq_right h, List.take_length, List.take_of_length_le h]
  rw [h1]
  rcases le_total a s.length with h | h
  · rw [min_eq_left h]
  · rw [min_eq_right h]
    have e1 : (s.take b).drop s.length = [] := by
      apply List.drop_eq_nil_of_le
      simp [List.length_take]
    have e2 : (s.take b).drop a = [] := by
      apply List.drop_eq_nil_of_le
      have := List.length_take b s
      omega
    rw [e1, e2]

/-- Slicing k characters starting at a is taking k from the drop at a. -/
theorem pySlice_drop (s : List Char) (a k : Nat) :
    pySlice s (a : Int) ((a + k : Nat) : Int) = (s.drop a).take k := by
  rw [pySlice_natCast, List.drop_take]
  congr 1
  omega

/-- Unfolding one iteration of the parse loop on a continuing step. -/
theorem parseRun_cont {s : List Char} {st st2 : ParseState} {fuel F : Nat}
    (hstep : parseStep s st = StepRes.cont st2) (hF : F = fuel + 1) :
    parseRun F s st = parseRun fuel s st2 := by
  subst hF
  simp [parseRun, hstep]

/-- Once the cursor has reached the end of the input the loop returns the
accumulated dictionary. -/
theorem parseRun_finish {s : List Char} {i fuel F : Nat} {f : Fields}
    (hF : F = fuel + 1) (hi : s.length ≤ i) :
    parseRun F s ⟨(i : Int), f⟩ = ParseOutcome.ok f := by
  subst hF
  have hcond : ¬ ((i : Int) < (s.length : Int)) := by
    omega
  simp [parseRun, parseStep, hcond]

/-- A single loop iteration on a character that is not an opening bracket
just advances the cursor. -/
theorem parseStep_noise {s t : List Char} {i : Nat} {c : Char} (f : Fields)
    (h : s.drop i = c :: t) (hc : c ≠ '<') :
    parseStep s ⟨(i : Int), f⟩ = StepRes.cont ⟨(i : Int) + 1, f⟩ := by
  have hlt : i < s.length := lt_length_of_drop_cons h
  have hcond : (i : Int) < (s.length : Int) := by
    omega
  have hat : s[i]? = some c := getElem_opt_of_drop_cons h
  simp [parseStep, hlt, hcond, pyCharAt_natCast, hat, hc]

/-- Scanning over a stretch of characters that contains no opening
bracket moves the cursor across it one position per iteration, leaving
the dictionary unchanged. -/
theorem parseRun_skip (noise : List Char) :
    ∀ (s rest : List Char) (i j fuel F : Nat) (f : Fields),
      F = noise.length + fuel →
      j = i + noise.length →
      s.drop i = noise ++ rest →
      '<' ∉ noise →
      parseRun F s ⟨(i : Int), f⟩ = parseRun fuel s ⟨(j : Int), f⟩ := by
  induction noise with
  | nil =>
    intro s rest i j fuel F f hF hj hdrop hn
    subst hF hj
    simp
  | cons c t ih =>
    intro s rest i j fuel F f hF hj hdrop hn
    subst hF hj
    have hd : s.drop i = c :: (t ++ rest) := by
      simpa using hdrop
    have hc : c ≠ '<' := by
      intro he
      subst he
      exact hn (List.mem_cons_self _ _)
    have e1 : (c :: t).length + fuel = (t.length + fuel) + 1 := by
      simp only [List.length_cons]
      omega
    rw [e1, parseRun_cont (parseStep_noise f hd hc) rfl]
    have e2 : ((i : Int) + 1) = ((i + 1 : Nat) : Int) := by
      push_cast
      ring
    rw [e2]
    exact ih s rest (i + 1) (i + (c :: t).length) fuel _ f rfl
      (by simp only [List.length_cons]; omega)
      (drop_succ_of_drop_cons hd)
      (fun hm => hn (List.mem_cons_of_mem _ hm))

/-- One loop iteration consumes a whole anchored A token: name A,
declared length 3, value xyz; the cursor advances 8 positions. -/
theorem parseStep_tokA (s : List Char) (i : Nat) (rest : List Char) (f : Fields)
    (h : s.drop i = '<' :: 'A' :: ':' :: '3' :: '>' :: 'x' :: 'y' :: 'z' :: rest) :
    parseStep s ⟨(i : Int), f⟩ =
      StepRes.cont ⟨((i + 8 : Nat) : Int), (['A'], ['x', 'y', 'z']) :: f⟩ := by
  have hlt : i < s.length := lt_length_of_drop_cons h
  have hcond : (i : Int) < (s.length : Int) := by
    omega
  have hat : s[i]? = some '<' := getElem_opt_of_drop_cons h
  have hfind : findChar (s.drop i) '>' = some 4 := by
    rw [h]
    rfl
  have hpf : pyFind s '>' (i : Int) = ((i + 4 : Nat) : Int) :=
    pyFind_natCast_of_findChar hfind
  have hne1 : ¬ (((i + 4 : Nat) : Int) = -1) := by
    omega
  have hd1 : s.drop (i + 1) = 'A' :: ':' :: '3' :: '>' :: 'x' :: 'y' :: 'z' :: rest :=
    drop_succ_of_drop_cons h
  have hinfo : pySlice s ((i : Int) + 1) ((i + 4 : Nat) : Int) = ['A', ':', '3'] := by
    have hc1 : ((i : Int) + 1) = ((i + 1 : Nat) : Int) := by
      push_cast
      ring
    have hc2 : ((i + 4 : Nat) : Int) = (((i + 1) + 3 : Nat) : Int) := by
      push_cast
      ring
    rw [hc1, hc2, pySlice_drop, hd1]
    rfl
  have h5 : s.drop i = ['<', 'A', ':', '3', '>'] ++ ('x' :: 'y' :: 'z' :: rest) := h
  have hd5 : s.drop (i + 5) = 'x' :: 'y' :: 'z' :: rest := drop_chunk h5 rfl rfl
  have hsplit : pySplit ':' ['A', ':', '3'] = [['A'], ['3']] := rfl
  have hint : pyInt ['3'] = some (3 : Int) := rfl
  have hupper : (['A'] : List Char).map Char.toUpper = ['A'] := rfl
  have hcur : (((i + 4 : Nat) : Int) + 1 + 3) = ((i + 8 : Nat) : Int) := by
    push_cast
    ring
  simp only [parseStep, hcond, if_true, pyCharAt_natCast, hat, hpf, if_neg hne1, hinfo,
    hsplit, hint, hupper, hcur]
  simp
  have e1 : ((i : Int) + 4 + 1) = ((i + 5 : Nat) : Int) := by
    push_cast
    ring
  have e2 : ((i : Int) + 8) = (((i + 5) + 3 : Nat) : Int) := by
    push_cast
    ring
  rw [e1, e2, pySlice_drop, hd5]
  rfl

/-- One loop iteration consumes a whole anchored B token: name B,
declared length 2, value ab; the cursor advances 7 positions. -/
theorem parseStep_tokB (s : List Char) (i : Nat) (rest : List Char) (f : Fields)
    (h : s.drop i = '<' :: 'B' :: ':' :: '2' :: '>' :: 'a' :: 'b' :: rest) :
    parseStep s ⟨(i : Int), f⟩ =
      StepRes.cont ⟨((i + 7 : Nat) : Int), (['B'], ['a', 'b']) :: f⟩ := by
  have hlt : i < s.length := lt_length_of_drop_cons h
  have hcond : (i : Int) < (s.length : Int) := by
    omega
  have hat : s[i]? = some '<' := getElem_opt_of_drop_cons h
  have hfind : findChar (s.drop i) '>' = some 4 := by
    rw [h]
    rfl
  have hpf : pyFind s '>' (i : Int) = ((i + 4 : Nat) : Int) :=
    pyFind_natCast_of_findChar hfind
  have hne1 : ¬ (((i + 4 : Nat) : Int) = -1) := by
    omega
  have hd1 : s.drop (i + 1) = 'B' :: ':' :: '2' :: '>' :: 'a' :: 'b' :: rest :=
    drop_succ_of_drop_cons h
  have hinfo : pySlice s ((i : Int) + 1) ((i + 4 : Nat) : Int) = ['B', ':', '2'] := by
    have hc1 : ((i : Int) + 1) = ((i + 1 : Nat) : Int) := by
      push_cast
      ring
    have hc2 : ((i + 4 : Nat) : Int) = (((i + 1) + 3 : Nat) : Int) := by
      push_cast
      ring
    rw [hc1, hc2, pySlice_drop, hd1]
    rfl
  have h5 : s.drop i = ['<', 'B', ':', '2', '>'] ++ ('a' :: 'b' :: rest) := h
  have hd5 : s.drop (i + 5) = 'a' :: 'b' :: rest := drop_chunk h5 rfl rfl
  have hsplit : pySplit ':' ['B', ':', '2'] = [['B'], ['2']] := rfl
  have hint : pyInt ['2'] = some (2 : Int) := rfl
  have hupper : (['B'] : List Char).map Char.toUpper = ['B'] := rfl
  have hcur : (((i + 4 : Nat) : Int) + 1 + 2) = ((i + 7 : Nat) : Int) := by
    push_cast
    ring
  simp only [parseStep, hcond, if_true, pyCharAt_natCast, hat, hpf, if_neg hne1, hinfo,
    hsplit, hint, hupper, hcur]
  simp
  have e1 : ((i : Int) + 4 + 1) = ((i + 5 : Nat) : Int) := by
    push_cast
    ring
  have e2 : ((i : Int) + 7) = (((i + 5) + 2 : Nat) : Int) := by
    push_cast
    ring
  rw [e1, e2, pySlice_drop, hd5]
  rfl

/-- Run-level version of the A-token step. -/
theorem parseRun_tokA (s rest : List Char) (i j fuel F : Nat) (f : Fields)
    (hF : F = fuel + 1) (hj : j = i + 8) (hdrop : s.drop i = tokA ++ rest) :
    parseRun F s ⟨(i : Int), f⟩ =
      parseRun fuel s ⟨(j : Int), (['A'], ['x', 'y', 'z']) :: f⟩ := by
  subst hF hj
  have hd : s.drop i = '<' :: 'A' :: ':' :: '3' :: '>' :: 'x' :: 'y' :: 'z' :: rest := hdrop
  exact parseRun_cont (parseStep_tokA s i rest f hd) rfl

/-- Run-level version of the B-token step. -/
theorem parseRun_tokB (s rest : List Char) (i j fuel F : Nat) (f : Fields)
    (hF : F = fuel + 1) (hj : j = i + 7) (hdrop : s.drop i = tokB ++ rest) :
    parseRun F s ⟨(i : Int), f⟩ =
      parseRun fuel s ⟨(j : Int), (['B'], ['a', 'b']) :: f⟩ := by
  subst hF hj
  have hd : s.drop i = '<' :: 'B' :: ':' :: '2' :: '>' :: 'a' :: 'b' :: rest := hdrop
  exact parseRun_cont (parseStep_tokB s i rest f hd) rfl

/-- C2: for any noise stretches free of opening brackets placed before,
between, and after the anchored tokens of the sequence given by tokA and
tokB, the tokenizer succeeds and its dictionary maps A to xyz and B to
ab. -/
theorem tokenizer_noise_robust (n1 n2 n3 : List Char)
    (h1 : '<' ∉ n1) (h2 : '<' ∉ n2) (h3 : '<' ∉ n3) :
    ∃ f, parse (n1 ++ tokA ++ n2 ++ tokB ++ n3) = ParseOutcome.ok f ∧
      Fields.lookup f ['A'] = some ['x', 'y', 'z'] ∧
      Fields.lookup f ['B'] = some ['a', 'b'] := by
  refine ⟨[(['B'], ['a', 'b']), (['A'], ['x', 'y', 'z'])], ?_, by decide, by decide⟩
  have hassoc : n1 ++ tokA ++ n2 ++ tokB ++ n3 = n1 ++ (tokA ++ (n2 ++ (tokB ++ n3))) := by
    simp [List.append_assoc]
  rw [hassoc]
  set big := n1 ++ (tokA ++ (n2 ++ (tokB ++ n3))) with hbig
  have hlen : big.length = n1.length + n2.length + n3.length + 15 := by
    rw [hbig]
    simp only [List.length_append, tokA, tokB, List.length_cons, List.length_nil]
    omega
  show parseRun (big.length + 1) big ⟨((0 : Nat) : Int), []⟩ =
    ParseOutcome.ok [(['B'], ['a', 'b']), (['A'], ['x', 'y', 'z'])]
  have hd0 : big.drop 0 = n1 ++ (tokA ++ (n2 ++ (tokB ++ n3))) := by
    rw [hbig]
    simp
  have s1 : parseRun (big.length + 1) big ⟨((0 : Nat) : Int), []⟩
      = parseRun (n2.length + (n3.length + 16)) big ⟨(n1.length : Int), []⟩ :=
    parseRun_skip n1 big (tokA ++ (n2 ++ (tokB ++ n3))) 0 n1.length
      (n2.length + (n3.length + 16)) (big.length + 1) [] (by omega) (by omega) hd0 h1
  rw [s1]
  have hdA : big.drop n1.length = tokA ++ (n2 ++ (tokB ++ n3)) := by
    rw [hbig]
    exact List.drop_left n1 _
  have s2 : parseRun (n2.length + (n3.length + 16)) big ⟨(n1.length : Int), []⟩
      = parseRun (n2.length + (n3.length + 15)) big
        ⟨((n1.length + 8 : Nat) : Int), [(['A'], ['x', 'y', 'z'])]⟩ :=
    parseRun_tokA big (n2 ++ (tokB ++ n3)) n1.length (n1.length + 8)
      (n2.length + (n3.length + 15)) (n2.length + (n3.length + 16)) [] (by omega) rfl hdA
  rw [s2]
  have hd2 : big.drop (n1.length + 8) = n2 ++ (tokB ++ n3) := drop_chunk hdA rfl rfl
  have s3 : parseRun (n2.length + (n3.length + 15)) big
        ⟨((n1.length + 8 : Nat) : Int), [(['A'], ['x', 'y', 'z'])]⟩
      = parseRun (n3.length + 15) big
        ⟨((n1.length + 8 + n2.length : Nat) : Int), [(['A'], ['x', 'y', 'z'])]⟩ :=
    parseRun_skip n2 big (tokB ++ n3) (n1.length + 8) (n1.length + 8 + n2.length)
      (n3.length + 15) (n2.length + (n3.length + 15)) [(['A'], ['x', 'y', 'z'])]
      (by omega) (by omega) hd2 h2
  rw [s3]
  have hdB : big.drop (n1.length + 8 + n2.length) = tokB ++ n3 := drop_chunk hd2 rfl rfl
  have s4 : parseRun (n3.length + 15) big
        ⟨((n1.length + 8 + n2.length : Nat) : Int), [(['A'], ['x', 'y', 'z'])]⟩
      = parseRun (n3.length + 14) big
        ⟨((n1.length + 8 + n2.length + 7 : Nat) : Int),
          [(['B'], ['a', 'b']), (['A'], ['x', 'y', 'z'])]⟩ :=
    parseRun_tokB big n3 (n1.length + 8 + n2.length) (n1.length + 8 + n2.length + 7)
      (n3.length + 14) (n3.length + 15) [(['A'], ['x', 'y', 'z'])] (by omega) rfl hdB
  rw [s4]
  have hd3 : big.drop (n1.length + 8 + n2.length + 7) = n3 ++ ([] : List Char) := by
    rw [List.append_nil]
    exact drop_chunk hdB rfl rfl
  have s5 : parseRun (n3.length + 14) big
        ⟨((n1.length + 8 + n2.length + 7 : Nat) : Int),
          [(['B'], ['a', 'b']), (['A'], ['x', 'y', 'z'])]⟩
      = parseRun 14 big
        ⟨((n1.length + 8 + n2.length + 7 + n3.length : Nat) : Int),
          [(['B'], ['a', 'b']), (['A'], ['x', 'y', 'z'])]⟩ :=
    parseRun_skip n3 big [] (n1.length + 8 + n2.length + 7)
      (n1.length + 8 + n2.length + 7 + n3.length) 14 (n3.length + 14)
      [(['B'], ['a', 'b']), (['A'], ['x', 'y', 'z'])] (by omega) (by omega) hd3 h3
  rw [s5]
  have s6 : parseRun 14 big
        ⟨((n1.length + 8 + n2.length + 7 + n3.length : Nat) : Int),
          [(['B'], ['a', 'b']), (['A'], ['x', 'y', 'z'])]⟩
      = ParseOutcome.ok [(['B'], ['a', 'b']), (['A'], ['x', 'y', 'z'])] :=
    parseRun_finish rfl (by omega)
  rw [s6]

/-- Witness for C2 with one noise character in each stretch. -/
theorem tokenizer_noise_robust_witness :
    ('<' ∉ (['n'] : List Char)) ∧
    ∃ f, parse (['n'] ++ tokA ++ ['n'] ++ tokB ++ ['n']) = ParseOutcome.ok f ∧
      Fields.lookup f ['A'] = some ['x', 'y', 'z'] ∧
      Fields.lookup f ['B'] = some ['a', 'b'] :=
  ⟨by decide, tokenizer_noise_robust ['n'] ['n'] ['n'] (by decide) (by decide) (by decide)⟩
